import Mathlib

/-!
# udpspoof: IPv4/UDP packet assembly and the Internet checksum

A shallow embedding of `src/main.go` (package `udpspoof`).

* Go `byte`/`uint8` is `Byte = Fin 256`, Go `uint16` is `Word16 = Fin 65536`; every
  arithmetic step is done in `Nat` and reduced explicitly (`% 2 ^ 32` for the `uint32`
  accumulator of `checksum`, `u16` for a conversion `uint16(x)`).
* A Go `[]byte` is a `List Byte`; a nil slice is the empty list.
* A method with a pointer receiver that mutates it returns the updated receiver.
-/

namespace udpspoof

/-! ## Machine integers and byte buffers -/

/-- Go `byte` / `uint8`. -/
abbrev Byte := Fin 256

/-- Go `uint16`. -/
abbrev Word16 := Fin 65536

/-- The Go conversion `uint16(n)`: keep the low 16 bits. -/
def u16 (n : Nat) : Word16 := ⟨n % 65536, Nat.mod_lt _ (by decide)⟩

/-- The Go conversion `uint8(n)`: keep the low 8 bits. -/
def u8 (n : Nat) : Byte := ⟨n % 256, Nat.mod_lt _ (by decide)⟩

/-- Bitwise complement `^x` of a `uint16`. -/
def not16 (x : Word16) : Word16 := ⟨0xffff - x.val, by omega⟩

/-- Go `[4]byte`. -/
structure Bytes4 where
  b0 : Byte
  b1 : Byte
  b2 : Byte
  b3 : Byte
deriving DecidableEq

/-- The zero value of `[4]byte`. -/
def Bytes4.zero : Bytes4 := ⟨0, 0, 0, 0⟩

/-- The four bytes of a `[4]byte`, in order. -/
def Bytes4.toList (a : Bytes4) : List Byte := [a.b0, a.b1, a.b2, a.b3]

/-- Go builtin `copy(dst[:], src)` for a `[4]byte` destination: the first
`min 4 (len src)` bytes of `src` overwrite the front of `dst`. -/
def copy4 (dst : Bytes4) (src : List Byte) : Bytes4 :=
  match src with
  | a :: b :: c :: d :: _ => ⟨a, b, c, d⟩
  | [a, b, c] => ⟨a, b, c, dst.b3⟩
  | [a, b] => ⟨a, b, dst.b2, dst.b3⟩
  | [a] => ⟨a, dst.b1, dst.b2, dst.b3⟩
  | [] => dst

/-- Go `net.IP.To4` (standard library): a 4-byte address is returned as is, a 16-byte
IPv4-mapped address (ten zero bytes, then `0xff 0xff`) yields its last four bytes,
anything else yields nil (the empty list). -/
def To4 (ip : List Byte) : List Byte :=
  if ip.length = 4 then ip
  else if ip.length = 16 ∧ (ip.take 10).all (fun b => b == 0)
      ∧ ip.getD 10 0 = 0xff ∧ ip.getD 11 0 = 0xff then
    (ip.drop 12).take 4
  else []

/-! ## Headers (`src/main.go` lines 22-49) -/

/-- The `iphdr` struct. -/
structure iphdr where
  vhl : Byte
  tos : Byte
  iplen : Word16
  id : Word16
  off : Word16
  ttl : Byte
  proto : Byte
  csum : Word16
  src : Bytes4
  dst : Bytes4
deriving DecidableEq

/-- The `udphdr` struct. -/
structure udphdr where
  src : Word16
  dst : Word16
  ulen : Word16
  csum : Word16
deriving DecidableEq

/-- The `pseudohdr` struct: pseudo header used for checksum calculation. -/
structure pseudohdr where
  ipsrc : Bytes4
  ipdst : Bytes4
  zero : Byte
  ipproto : Byte
  plen : Word16
deriving DecidableEq

/-- Big-endian encoding of a `uint16` (what `binary.BigEndian` writes for it). -/
def putUint16 (x : Word16) : List Byte := [u8 (x.val / 256), u8 x.val]

/-- The bytes `binary.Write(&b, binary.BigEndian, h)` appends for an `iphdr`:
the fields in declaration order, each big-endian. -/
def binary_Write_iphdr (h : iphdr) : List Byte :=
  [h.vhl, h.tos] ++ putUint16 h.iplen ++ putUint16 h.id ++ putUint16 h.off
    ++ [h.ttl, h.proto] ++ putUint16 h.csum ++ h.src.toList ++ h.dst.toList

/-- The bytes `binary.Write(&b, binary.BigEndian, u)` appends for a `udphdr`. -/
def binary_Write_udphdr (u : udphdr) : List Byte :=
  putUint16 u.src ++ putUint16 u.dst ++ putUint16 u.ulen ++ putUint16 u.csum

/-- The bytes `binary.Write(&b, binary.BigEndian, &phdr)` appends for a `pseudohdr`. -/
def binary_Write_pseudohdr (p : pseudohdr) : List Byte :=
  p.ipsrc.toList ++ p.ipdst.toList ++ [p.zero, p.ipproto] ++ putUint16 p.plen

/-- The bytes `binary.Write(&b, binary.BigEndian, &payload)` appends for a `[]byte`:
the slice itself. -/
def binary_Write_bytes (payload : List Byte) : List Byte := payload

/-! ## `checksum` (`src/main.go` lines 51-75) -/

/-- The first loop of `checksum` and the odd-byte step after it (lines 54-59):
`sum` is the `uint32` accumulator, so every addition is reduced modulo `2 ^ 32`. -/
def checksum.sumLoop : Nat → List Byte → Nat
  | sum, b0 :: b1 :: buf => checksum.sumLoop ((sum + ((b0.val <<< 8) ||| b1.val)) % 2 ^ 32) buf
  | sum, [b0] => (sum + (b0.val <<< 8)) % 2 ^ 32
  | sum, [] => sum

/-- The carry-folding loop of `checksum` (lines 60-62):
`for sum > 0xffff { sum = (sum >> 16) + (sum & 0xffff) }`. -/
def checksum.foldLoop (sum : Nat) : Nat :=
  if h : sum > 0xffff then checksum.foldLoop ((sum >>> 16) + (sum &&& 0xffff)) else sum
termination_by sum
decreasing_by
  have h1 : sum >>> 16 = sum / 65536 := Nat.shiftRight_eq_div_pow sum 16
  have h2 : sum &&& 0xffff = sum % 65536 := Nat.and_pow_two_sub_one_eq_mod sum 16
  rw [h1, h2]
  omega

/-- The function `checksum(buf []byte) uint16`. -/
def checksum (buf : List Byte) : Word16 :=
  let sum := checksum.foldLoop (checksum.sumLoop 0 buf)
  let csum := not16 (u16 sum)
  if csum = 0 then 0xffff else csum

/-- The method `(h *iphdr) checksum()` (lines 77-82); the result is the receiver after
the call. -/
def iphdr.checksum (h : iphdr) : iphdr :=
  let h := { h with csum := 0 }
  let b := binary_Write_iphdr h
  { h with csum := udpspoof.checksum b }

/-- The method `(u *udphdr) checksum(ip *iphdr, payload []byte)` (lines 84-98); the
result is the receiver after the call. -/
def udphdr.checksum (u : udphdr) (ip : iphdr) (payload : List Byte) : udphdr :=
  let u := { u with csum := 0 }
  let phdr : pseudohdr :=
    { ipsrc := ip.src, ipdst := ip.dst, zero := 0, ipproto := ip.proto, plen := u.ulen }
  let b := binary_Write_pseudohdr phdr
  let b := b ++ binary_Write_udphdr u
  let b := b ++ binary_Write_bytes payload
  { u with csum := udpspoof.checksum b }

/-! ## `Conn` and `WriteAs` (`src/main.go` lines 100-181) -/

/-- Modelled from the spec: the constant `unix.IPPROTO_UDP` of golang.org/x/sys/unix
(not under src/); the spec gives protocol UDP = 17. -/
def IPPROTO_UDP : Byte := 17

/-- The `Conn` struct (the embedded mutex carries no data). -/
structure Conn where
  fd : Int
  IPSrc : List Byte
  IPDst : List Byte
  SrcPort : Word16
  DstPort : Word16
deriving DecidableEq

/-- The struct `unix.SockaddrInet4`: port and 4-byte address. -/
structure SockaddrInet4 where
  Port : Int
  Addr : Bytes4
deriving DecidableEq

/-- The Go `error` values `WriteAs` can return: its own four and the one of the
raw-send primitive (an errno). -/
inductive Error where
  | tooLarge
  | encodeIP
  | encodeUDP
  | encodePayload
  | sendto (errno : Nat)
deriving DecidableEq

/-- The arguments of the call `unix.Sendto(fd, p, flags, to)` (`addr` is the parameter `to`). -/
structure SendtoArgs where
  fd : Int
  p : List Byte
  flags : Int
  addr : SockaddrInet4
deriving DecidableEq

/-- A call `binary.Write(&b, binary.BigEndian, data)` on a `bytes.Buffer` holding `b`,
for data whose encoding is `enc`: the returned error and the buffer afterwards. The data
written here are fixed-size structs and byte slices and `bytes.Buffer.Write` returns a nil
error, so the error is nil. -/
def binary_Write (b : List Byte) (enc : List Byte) : Bool × List Byte := (false, b ++ enc)

/-- The statement `bb[2], bb[3] = bb[3], bb[2]` (line 172). -/
def swap23 (bb : List Byte) : List Byte := (bb.set 2 (bb.getD 3 0)).set 3 (bb.getD 2 0)

/-- Lines 118-173 of `WriteAs`: everything up to the call of `unix.Sendto`. The result is
either the error of an early return or the arguments handed to `unix.Sendto`; `darwin`
is the test `runtime.GOOS == "darwin"`. (The `log.Println` of line 137 is not modelled.) -/
def WriteAs.sendtoArgs (darwin : Bool) (c : Conn) (ipsrc : List Byte) (port : Word16)
    (payload : List Byte) : Except Error SendtoArgs :=
  let addr : SockaddrInet4 := { Port := 0, Addr := Bytes4.zero }
  let ip : iphdr :=
    { vhl := 0x45, tos := 0, iplen := 0, id := 0x1234, off := 0, ttl := 64,
      proto := IPPROTO_UDP, csum := 0, src := Bytes4.zero, dst := Bytes4.zero }
  let ip := { ip with src := copy4 ip.src (To4 ipsrc) }
  let ip := { ip with dst := copy4 ip.dst (To4 c.IPDst) }
  let udp : udphdr := { src := port, dst := c.DstPort, ulen := 0, csum := 0 }
  let payload :=
    if payload.length + 8 + 20 > 0xffff then payload.take (0xffff - 0x8 - 0x14) else payload
  let udplen := 8 + payload.length
  let totalLen := 20 + udplen
  if totalLen > 0xffff then .error Error.tooLarge
  else
    let ip := { ip with iplen := u16 totalLen }
    let ip := ip.checksum
    let udp := { udp with ulen := u16 udplen }
    let udp := udp.checksum ip payload
    let (err, b) := binary_Write [] (binary_Write_iphdr ip)
    if err then .error Error.encodeIP
    else
      let (err, b) := binary_Write b (binary_Write_udphdr udp)
      if err then .error Error.encodeUDP
      else
        let (err, b) := binary_Write b (binary_Write_bytes payload)
        if err then .error Error.encodePayload
        else
          let bb := b
          let bb := if darwin then swap23 bb else bb
          .ok { fd := c.fd, p := bb, flags := 0, addr := addr }

/-- The method `(c *Conn) WriteAs(ipsrc net.IP, port uint16, payload []byte) (int, error)`.
`sendto` is the raw-send primitive `unix.Sendto`: `none` for a nil error, `some errno`
for a failure. -/
def WriteAs (darwin : Bool) (sendto : SendtoArgs → Option Nat) (c : Conn)
    (ipsrc : List Byte) (port : Word16) (payload : List Byte) : Int × Option Error :=
  match WriteAs.sendtoArgs darwin c ipsrc port payload with
  | .error e => (0, some e)
  | .ok a =>
    match sendto a with
    | some errno => (0, some (Error.sendto errno))
    | none => ((a.p.length : Int), none)

/-- The method `(c *Conn) Write(payload []byte) (int, error)`. -/
def Write (darwin : Bool) (sendto : SendtoArgs → Option Nat) (c : Conn)
    (payload : List Byte) : Int × Option Error :=
  WriteAs darwin sendto c c.IPSrc c.SrcPort payload

/-- The payload `WriteAs` places in the packet: the payload after the truncation step of
lines 136-139. -/
def WriteAs.payload (payload : List Byte) : List Byte :=
  if payload.length + 8 + 20 > 0xffff then payload.take (0xffff - 0x8 - 0x14) else payload

/-- The IP header `WriteAs` serialises: the value of `ip` after line 149. -/
def WriteAs.ip (c : Conn) (ipsrc : List Byte) (payload : List Byte) : iphdr :=
  iphdr.checksum
    { vhl := 0x45, tos := 0, iplen := u16 (20 + (8 + (WriteAs.payload payload).length)),
      id := 0x1234, off := 0, ttl := 64, proto := IPPROTO_UDP, csum := 0,
      src := copy4 Bytes4.zero (To4 ipsrc), dst := copy4 Bytes4.zero (To4 c.IPDst) }

/-- The UDP header `WriteAs` serialises: the value of `udp` after line 154. -/
def WriteAs.udp (c : Conn) (ipsrc : List Byte) (port : Word16) (payload : List Byte) :
    udphdr :=
  udphdr.checksum
    { src := port, dst := c.DstPort, ulen := u16 (8 + (WriteAs.payload payload).length),
      csum := 0 }
    (WriteAs.ip c ipsrc payload) (WriteAs.payload payload)

/-- The buffer `bb` of line 169, before the platform byte swap. -/
def WriteAs.bb (c : Conn) (ipsrc : List Byte) (port : Word16) (payload : List Byte) :
    List Byte :=
  binary_Write_iphdr (WriteAs.ip c ipsrc payload)
    ++ binary_Write_udphdr (WriteAs.udp c ipsrc port payload) ++ WriteAs.payload payload

/-- Big-endian reading of the two bytes of `bb` at offsets `i` and `i + 1`. -/
def be16At (bb : List Byte) (i : Nat) : Nat := 256 * (bb.getD i 0).val + (bb.getD (i + 1) 0).val

/-- Big-endian two-byte encoding of a number (exact for numbers below 65536). -/
def be16 (n : Nat) : List Byte := [u8 (n / 256), u8 n]

/-! ## System calls, `Close` and `NewUDPConn` (`src/main.go` lines 183-217) -/

/-- A call of an operating-system primitive made by this package: `unix.Sendto` with its
arguments, or `unix.Close` with its descriptor. -/
inductive Syscall where
  | sendto (a : SendtoArgs)
  | close (fd : Int)
deriving DecidableEq

/-- The operating system as the package sees it: the result of a call (`none` for a nil
error, `some errno` for a failure), given the calls made before it, oldest first. -/
abbrev OS := List Syscall → Syscall → Option Nat

/-- The method `WriteAs` with its system calls recorded: `t` lists the calls made so far,
the result is the list afterwards and the values `WriteAs` returns. -/
def WriteAs.run (darwin : Bool) (os : OS) (t : List Syscall) (c : Conn) (ipsrc : List Byte)
    (port : Word16) (payload : List Byte) : List Syscall × (Int × Option Error) :=
  match WriteAs.sendtoArgs darwin c ipsrc port payload with
  | .error e => (t, (0, some e))
  | .ok a =>
    (t ++ [Syscall.sendto a],
      match os t (Syscall.sendto a) with
      | some errno => (0, some (Error.sendto errno))
      | none => ((a.p.length : Int), none))

/-- The method `Write` with its system calls recorded (the mutex is not modelled). -/
def Write.run (darwin : Bool) (os : OS) (t : List Syscall) (c : Conn)
    (payload : List Byte) : List Syscall × (Int × Option Error) :=
  WriteAs.run darwin os t c c.IPSrc c.SrcPort payload

/-- The method `(c *Conn) Close() error` (lines 184-186): `return unix.Close(c.fd)`. The
connection itself is not changed. -/
def Close (os : OS) (t : List Syscall) (c : Conn) : List Syscall × Option Nat :=
  (t ++ [Syscall.close c.fd], os t (Syscall.close c.fd))

/-- The two errors of `strconv.ParseUint`: `ErrSyntax` and `ErrRange`. -/
inductive NumError where
  | syntaxErr
  | rangeErr
deriving DecidableEq

/-- The digit loop of Go `strconv.ParseUint` for base 10: `n` is the value so far and
`maxVal` is `2 ^ bitSize - 1`. A byte that is not a decimal digit is a syntax error, a
value above `maxVal` a range error. -/
def strconv_ParseUint.loop (maxVal : Nat) : Nat → List Char → Except NumError Nat
  | n, [] => .ok n
  | n, ch :: rest =>
    if 48 ≤ ch.toNat ∧ ch.toNat ≤ 57 then
      if n * 10 + (ch.toNat - 48) > maxVal then .error NumError.rangeErr
      else strconv_ParseUint.loop maxVal (n * 10 + (ch.toNat - 48)) rest
    else .error NumError.syntaxErr

/-- Go `strconv.ParseUint(s, 10, bitSize)` (standard library): the empty string is a
syntax error, otherwise the digits are read from the left. -/
def strconv_ParseUint (s : List Char) (bitSize : Nat) : Except NumError Nat :=
  if s = [] then .error NumError.syntaxErr
  else strconv_ParseUint.loop (2 ^ bitSize - 1) 0 s

/-- The standard-library and operating-system functions `NewUDPConn` calls, which are not
part of this package: `net.SplitHostPort` (host and port, or an error),
`net.ParseIP`, `unix.Socket(AF_INET, SOCK_RAW, IPPROTO_RAW)` (descriptor and errno) and
`unix.SetsockoptInt(fd, IPPROTO_IP, IP_HDRINCL, 1)`. -/
structure Env where
  SplitHostPort : List Char → Except Unit (List Char × List Char)
  ParseIP : List Char → List Byte
  Socket : Int × Option Nat
  SetsockoptInt : Int → Option Nat

/-- The errors `NewUDPConn` can return, by the call they come from. -/
inductive ConnError where
  | splitHostPort
  | parseUint (e : NumError)
  | socket (errno : Nat)
  | setsockopt (errno : Nat)
deriving DecidableEq

/-- The package variable `defaultSrcPort` (line 18). -/
def defaultSrcPort : Word16 := u16 54321

/-- The package variable `defaultSrcIP` (line 19). -/
def defaultSrcIP : List Char := "127.0.0.1".data

/-- The function `NewUDPConn(address string) (*Conn, error)` (lines 189-217). -/
def NewUDPConn (env : Env) (address : List Char) : Option Conn × Option ConnError :=
  match env.SplitHostPort address with
  | .error _ => (none, some ConnError.splitHostPort)
  | .ok (host, port) =>
    match strconv_ParseUint port 32 with
    | .error e => (none, some (ConnError.parseUint e))
    | .ok puint =>
      match env.Socket with
      | (fd, err) =>
        if err ≠ none ∨ fd < 0 then (none, err.map ConnError.socket)
        else
          match env.SetsockoptInt fd with
          | some errno => (none, some (ConnError.setsockopt errno))
          | none =>
            (some { fd := fd, IPDst := env.ParseIP host, DstPort := u16 puint,
                    SrcPort := defaultSrcPort, IPSrc := env.ParseIP defaultSrcIP }, none)

/-- An operating system in which `unix.Sendto` on a descriptor that has been closed fails
with `EBADF` (errno 9) and every other call succeeds. -/
def osClosedEBADF : OS := fun t call =>
  match call with
  | Syscall.sendto a => if Syscall.close a.fd ∈ t then some 9 else none
  | Syscall.close _ => none

/-- The 18 bytes the UDP checksum of `WriteAs` covers before its own field: the
pseudo-header (source address, destination address, zero, protocol, UDP length), then
source port, destination port and length of the UDP header. -/
def WriteAs.covered (c : Conn) (ipsrc : List Byte) (port : Word16) (payload : List Byte) :
    List Byte :=
  [(copy4 Bytes4.zero (To4 ipsrc)).b0, (copy4 Bytes4.zero (To4 ipsrc)).b1,
    (copy4 Bytes4.zero (To4 ipsrc)).b2, (copy4 Bytes4.zero (To4 ipsrc)).b3,
    (copy4 Bytes4.zero (To4 c.IPDst)).b0, (copy4 Bytes4.zero (To4 c.IPDst)).b1,
    (copy4 Bytes4.zero (To4 c.IPDst)).b2, (copy4 Bytes4.zero (To4 c.IPDst)).b3,
    0, IPPROTO_UDP,
    u8 ((WriteAs.udp c ipsrc port payload).ulen.val / 256),
    u8 (WriteAs.udp c ipsrc port payload).ulen.val,
    u8 (port.val / 256), u8 port.val, u8 (c.DstPort.val / 256), u8 c.DstPort.val,
    u8 ((WriteAs.udp c ipsrc port payload).ulen.val / 256),
    u8 (WriteAs.udp c ipsrc port payload).ulen.val]

/-- An example of the functions `NewUDPConn` calls: the address is split at its last
colon, the host `127.0.0.1` parses to its 16-byte form and every other host to the
16-byte form of 203.0.113.5, the socket call yields descriptor 3 and the socket option is
set without error. -/
def exampleEnv : Env :=
  { SplitHostPort := fun address =>
      .ok ((address.reverse.dropWhile (fun ch => ch ≠ ':')).tail.reverse,
        (address.reverse.takeWhile (fun ch => ch ≠ ':')).reverse)
    ParseIP := fun host =>
      if host = "127.0.0.1".data then [0, 0, 0, 0, 0, 0, 0, 0, 0, 0, 0xff, 0xff, 127, 0, 0, 1]
      else [0, 0, 0, 0, 0, 0, 0, 0, 0, 0, 0xff, 0xff, 203, 0, 113, 5]
    Socket := (3, none)
    SetsockoptInt := fun _ => none }

/-! ## Receiver-side definitions -/

/-- A buffer zero-padded to even length. -/
def padEven (l : List Byte) : List Byte := if l.length % 2 = 1 then l ++ [0] else l

/-- The data a receiver checks the UDP checksum of a packet `p` over, per RFC 768: the
pseudo-header taken from the IP header of the packet (source and destination address,
bytes 12-19; a zero byte; the protocol, byte 9; the UDP length, bytes 24-25), then the
UDP header with its stored checksum and the payload (bytes 20 on), zero-padded to even
length. -/
def receiverData (p : List Byte) : List Byte :=
  padEven ((p.drop 12).take 8 ++ [0, p.getD 9 0] ++ (p.drop 24).take 2 ++ p.drop 20)

/-! ## RFC 1071 reference definitions

Written from the specification's words, with unbounded arithmetic, for comparison with
`checksum`. -/

/-- The big-endian 16-bit words of a buffer; an odd final byte is the high byte of a
zero-padded word. -/
def rfc1071.words : List Byte → List Nat
  | b0 :: b1 :: buf => (256 * b0.val + b1.val) :: rfc1071.words buf
  | [b0] => [256 * b0.val]
  | [] => []

/-- The sum `W` of the words of a buffer. -/
def rfc1071.wordSum (buf : List Byte) : Nat := (rfc1071.words buf).sum

/-- The end-around-carry fold of an unbounded sum. -/
def rfc1071.fold (W : Nat) : Nat := if W = 0 then 0 else (W - 1) % 65535 + 1

/-- The RFC 1071 Internet checksum with the RFC 768 replacement of 0 by 0xFFFF. -/
def rfc1071.checksum (buf : List Byte) : Nat :=
  let r := 0xFFFF - rfc1071.fold (rfc1071.wordSum buf)
  if r = 0 then 0xFFFF else r

/-! ## Auxiliary lemmas: `checksum` -/

theorem word_lor (b0 b1 : Byte) : (b0.val <<< 8) ||| b1.val = 256 * b0.val + b1.val := by
  have h := Nat.mul_add_lt_is_or (i := 8) (b := b1.val) (by have := b1.isLt; omega) b0.val
  rw [Nat.shiftLeft_eq, Nat.mul_comm b0.val (2 ^ 8), ← h]

theorem byte_shift (b0 : Byte) : b0.val <<< 8 = 256 * b0.val := by
  rw [Nat.shiftLeft_eq]; omega

theorem wordSum_cons2 (b0 b1 : Byte) (buf : List Byte) :
    rfc1071.wordSum (b0 :: b1 :: buf) = 256 * b0.val + b1.val + rfc1071.wordSum buf := by
  simp [rfc1071.wordSum, rfc1071.words]

theorem wordSum_single (b0 : Byte) : rfc1071.wordSum [b0] = 256 * b0.val := by
  simp [rfc1071.wordSum, rfc1071.words]

theorem wordSum_nil : rfc1071.wordSum [] = 0 := by
  simp [rfc1071.wordSum, rfc1071.words]

/-- The accumulator loop computes the word sum modulo `2 ^ 32`, for a buffer of any
length. -/
theorem sumLoop_eq (sum : Nat) (buf : List Byte) (hs : sum < 2 ^ 32) :
    checksum.sumLoop sum buf = (sum + rfc1071.wordSum buf) % 2 ^ 32 := by
  induction sum, buf using checksum.sumLoop.induct with
  | case1 sum b0 b1 buf ih =>
    rw [checksum.sumLoop, ih (Nat.mod_lt _ (by decide)), word_lor, wordSum_cons2]
    omega
  | case2 sum b0 =>
    rw [checksum.sumLoop, byte_shift, wordSum_single]
  | case3 sum =>
    rw [checksum.sumLoop, wordSum_nil]
    omega

/-- Every word is at most `0xffff`, so the word sum is bounded by the word count. -/
theorem wordSum_le (buf : List Byte) :
    rfc1071.wordSum buf ≤ 65535 * ((buf.length + 1) / 2) := by
  induction buf using rfc1071.words.induct with
  | case1 b0 b1 buf ih =>
    rw [wordSum_cons2]
    have h0 := b0.isLt
    have h1 := b1.isLt
    simp only [List.length_cons]
    omega
  | case2 b0 =>
    rw [wordSum_single]
    have h0 := b0.isLt
    simp only [List.length_cons, List.length_nil]
    omega
  | case3 =>
    rw [wordSum_nil]
    omega

/-- For the buffers `WriteAs` checksums the `uint32` accumulator does not wrap. -/
theorem sumLoop_eq_wordSum (buf : List Byte) (hlen : buf.length ≤ 65535) :
    checksum.sumLoop 0 buf = rfc1071.wordSum buf := by
  rw [sumLoop_eq 0 buf (by decide)]
  have h := wordSum_le buf
  have h2 : (buf.length + 1) / 2 ≤ 32768 := by omega
  have h3 : 65535 * ((buf.length + 1) / 2) ≤ 65535 * 32768 := Nat.mul_le_mul_left _ h2
  rw [Nat.zero_add]
  apply Nat.mod_eq_of_lt
  omega

theorem foldLoop_unfold (sum : Nat) :
    checksum.foldLoop sum =
      if sum > 0xffff then checksum.foldLoop (sum / 65536 + sum % 65536) else sum := by
  have h1 : sum >>> 16 = sum / 65536 := Nat.shiftRight_eq_div_pow sum 16
  have h2 : sum &&& 0xffff = sum % 65536 := Nat.and_pow_two_sub_one_eq_mod sum 16
  rw [checksum.foldLoop]
  split
  · rw [h1, h2]
  · rfl

/-- The carry-folding loop terminates on every sum and yields the end-around-carry
fold. -/
theorem foldLoop_eq (sum : Nat) : checksum.foldLoop sum = rfc1071.fold sum := by
  induction sum using Nat.strong_induction_on with
  | _ sum ih =>
    rw [foldLoop_unfold]
    split
    · rename_i h
      rw [ih (sum / 65536 + sum % 65536) (by omega)]
      unfold rfc1071.fold
      have hne : sum ≠ 0 := by omega
      have hne2 : sum / 65536 + sum % 65536 ≠ 0 := by omega
      rw [if_neg hne, if_neg hne2]
      omega
    · rename_i h
      unfold rfc1071.fold
      split
      · omega
      · omega

theorem fold_le (W : Nat) : rfc1071.fold W ≤ 65535 := by
  unfold rfc1071.fold
  split
  · omega
  · omega

/-- The value of `checksum` in terms of the accumulated sum. -/
theorem checksum_val (buf : List Byte) :
    (checksum buf).val =
      (if 0xffff - rfc1071.fold (checksum.sumLoop 0 buf) = 0 then 0xffff
        else 0xffff - rfc1071.fold (checksum.sumLoop 0 buf)) := by
  have hf := fold_le (checksum.sumLoop 0 buf)
  unfold checksum
  simp only [foldLoop_eq]
  have hv : (not16 (u16 (rfc1071.fold (checksum.sumLoop 0 buf)))).val
      = 0xffff - rfc1071.fold (checksum.sumLoop 0 buf) := by
    simp only [not16, u16]
    omega
  by_cases h0 : not16 (u16 (rfc1071.fold (checksum.sumLoop 0 buf))) = 0
  · rw [if_pos h0]
    have : (not16 (u16 (rfc1071.fold (checksum.sumLoop 0 buf)))).val = 0 := by rw [h0]; rfl
    rw [hv] at this
    rw [if_pos this]
    rfl
  · rw [if_neg h0]
    have : (not16 (u16 (rfc1071.fold (checksum.sumLoop 0 buf)))).val ≠ 0 := by
      intro hc
      exact h0 (Fin.ext hc)
    rw [hv] at this
    rw [if_neg this, hv]

theorem checksum_val_eq_rfc1071 (buf : List Byte) (hlen : buf.length ≤ 65535) :
    (checksum buf).val = rfc1071.checksum buf := by
  rw [checksum_val, sumLoop_eq_wordSum buf hlen]
  rfl

theorem checksum_congr (a b : List Byte)
    (h : checksum.sumLoop 0 a = checksum.sumLoop 0 b) : checksum a = checksum b := by
  unfold checksum
  rw [h]

theorem words_append_zero (buf : List Byte) (hodd : buf.length % 2 = 1) :
    rfc1071.words (buf ++ [0]) = rfc1071.words buf := by
  induction buf using rfc1071.words.induct with
  | case1 b0 b1 buf ih =>
    have h : buf.length % 2 = 1 := by
      simp only [List.length_cons] at hodd
      omega
    simp only [List.cons_append, rfc1071.words, List.append_eq, ih h]
  | case2 b0 =>
    simp [rfc1071.words]
  | case3 =>
    simp at hodd

/-! ## Auxiliary lemmas: `WriteAs` -/

theorem payload_length (payload : List Byte) :
    (WriteAs.payload payload).length = min payload.length 65507 := by
  unfold WriteAs.payload
  split
  · rw [List.length_take]
    omega
  · omega

theorem payload_length_le (payload : List Byte) :
    (WriteAs.payload payload).length ≤ 65507 := by
  rw [payload_length]
  omega

/-- `WriteAs` always reaches the call of `unix.Sendto`, and with these arguments. -/
theorem sendtoArgs_ok (darwin : Bool) (c : Conn) (ipsrc : List Byte) (port : Word16)
    (payload : List Byte) :
    WriteAs.sendtoArgs darwin c ipsrc port payload =
      .ok { fd := c.fd,
            p := if darwin then swap23 (WriteAs.bb c ipsrc port payload)
                 else WriteAs.bb c ipsrc port payload,
            flags := 0,
            addr := { Port := 0, Addr := Bytes4.zero } } := by
  have hle := payload_length_le payload
  have hguard : ¬ (20 + (8 + (WriteAs.payload payload).length) > 0xffff) := by omega
  unfold WriteAs.sendtoArgs
  simp only [binary_Write, binary_Write_bytes, List.nil_append]
  change (if 20 + (8 + (WriteAs.payload payload).length) > 0xffff then _ else _) = _
  rw [if_neg hguard]
  rfl

/-- The 28 header bytes of the assembled buffer, one by one, followed by the payload. -/
theorem bb_cons (c : Conn) (ipsrc : List Byte) (port : Word16) (payload : List Byte) :
    WriteAs.bb c ipsrc port payload =
      0x45 :: 0 :: u8 ((WriteAs.ip c ipsrc payload).iplen.val / 256)
        :: u8 (WriteAs.ip c ipsrc payload).iplen.val
        :: u8 (0x1234 / 256) :: u8 0x1234 :: u8 (0 / 256) :: u8 0 :: 64 :: IPPROTO_UDP
        :: u8 ((WriteAs.ip c ipsrc payload).csum.val / 256)
        :: u8 (WriteAs.ip c ipsrc payload).csum.val
        :: (copy4 Bytes4.zero (To4 ipsrc)).b0 :: (copy4 Bytes4.zero (To4 ipsrc)).b1
        :: (copy4 Bytes4.zero (To4 ipsrc)).b2 :: (copy4 Bytes4.zero (To4 ipsrc)).b3
        :: (copy4 Bytes4.zero (To4 c.IPDst)).b0 :: (copy4 Bytes4.zero (To4 c.IPDst)).b1
        :: (copy4 Bytes4.zero (To4 c.IPDst)).b2 :: (copy4 Bytes4.zero (To4 c.IPDst)).b3
        :: u8 (port.val / 256) :: u8 port.val
        :: u8 (c.DstPort.val / 256) :: u8 c.DstPort.val
        :: u8 ((WriteAs.udp c ipsrc port payload).ulen.val / 256)
        :: u8 (WriteAs.udp c ipsrc port payload).ulen.val
        :: u8 ((WriteAs.udp c ipsrc port payload).csum.val / 256)
        :: u8 (WriteAs.udp c ipsrc port payload).csum.val
        :: WriteAs.payload payload := rfl

theorem be16_u8 (n : Nat) (h : n < 65536) : 256 * (u8 (n / 256)).val + (u8 n).val = n := by
  simp only [u8]
  omega

theorem copy4_toList (dst : Bytes4) (src : List Byte) (h : src.length = 4) :
    (copy4 dst src).toList = src := by
  match src, h with
  | [a, b, c, d], _ => rfl

theorem ip_iplen (c : Conn) (ipsrc : List Byte) (payload : List Byte) :
    (WriteAs.ip c ipsrc payload).iplen.val = 20 + (8 + (WriteAs.payload payload).length) := by
  have hle := payload_length_le payload
  show (20 + (8 + (WriteAs.payload payload).length)) % 65536 = _
  omega

theorem udp_ulen (c : Conn) (ipsrc : List Byte) (port : Word16) (payload : List Byte) :
    (WriteAs.udp c ipsrc port payload).ulen.val = 8 + (WriteAs.payload payload).length := by
  have hle := payload_length_le payload
  show (8 + (WriteAs.payload payload).length) % 65536 = _
  omega

theorem bb_length (c : Conn) (ipsrc : List Byte) (port : Word16) (payload : List Byte) :
    (WriteAs.bb c ipsrc port payload).length = 28 + (WriteAs.payload payload).length := by
  rw [bb_cons]
  simp only [List.length_cons]
  omega

/-- The platform byte swap exchanges bytes 2 and 3 of a buffer and changes nothing else. -/
theorem swap23_cons (x0 x1 x2 x3 : Byte) (rest : List Byte) :
    swap23 (x0 :: x1 :: x2 :: x3 :: rest) = x0 :: x1 :: x3 :: x2 :: rest := rfl

/-! ## Claims about `checksum` -/

/-- C1: for every buffer of length at most 65535, `checksum` equals the RFC 1071 Internet
checksum computed with unbounded arithmetic: with `W` the sum of the big-endian 16-bit
words (an odd final byte being the high byte of a zero-padded word) and `f` the
end-around-carry fold of `W`, the result is `0xFFFF - f`, a result of 0 being replaced by
`0xFFFF`. -/
theorem C1_checksum_eq_rfc1071 (B : List Byte) (hlen : B.length ≤ 65535) :
    (checksum B).val = rfc1071.checksum B
    ∧ rfc1071.checksum B =
        (if 0xFFFF - rfc1071.fold (rfc1071.wordSum B) = 0 then 0xFFFF
          else 0xFFFF - rfc1071.fold (rfc1071.wordSum B)) :=
  ⟨checksum_val_eq_rfc1071 B hlen, rfl⟩

/-- Witness of C1 on the three-byte buffer `01 02 03`: the words are `0x0102` and
`0x0300`, the checksum is `0xFFFF - 0x0402`. -/
theorem C1_checksum_eq_rfc1071_witness :
    ([1, 2, 3] : List Byte).length ≤ 65535
    ∧ (checksum [1, 2, 3]).val = rfc1071.checksum [1, 2, 3]
    ∧ rfc1071.checksum [1, 2, 3] = 0xFFFF - 0x0402 :=
  ⟨by decide, (C1_checksum_eq_rfc1071 [1, 2, 3] (by decide)).1, by decide⟩

/-- C7: for every buffer, of any length and also the empty one, `checksum` is never
`0x0000`. -/
theorem C7_checksum_ne_zero (B : List Byte) : checksum B ≠ 0 ∧ (checksum B).val ≠ 0 := by
  have h : checksum B ≠ 0 := by
    unfold checksum
    simp only
    split
    · decide
    · assumption
  exact ⟨h, fun hv => h (Fin.ext hv)⟩

/-- C8: for every buffer of length at most 65535 whose words sum to zero in one's
complement arithmetic (the end-around-carry folded sum is `0x0000` or `0xFFFF`),
`checksum` is `0xFFFF`. -/
theorem C8_checksum_of_zero_sum (B : List Byte) (hlen : B.length ≤ 65535)
    (hz : rfc1071.fold (rfc1071.wordSum B) = 0x0000
      ∨ rfc1071.fold (rfc1071.wordSum B) = 0xFFFF) :
    checksum B = 0xFFFF := by
  apply Fin.ext
  rw [checksum_val_eq_rfc1071 B hlen]
  unfold rfc1071.checksum
  rcases hz with h | h <;> rw [h] <;> rfl

/-- Witness of C8 on `FF FE 00 01`, whose words sum to `0xFFFF`. -/
theorem C8_checksum_of_zero_sum_witness :
    rfc1071.fold (rfc1071.wordSum [0xFF, 0xFE, 0x00, 0x01]) = 0xFFFF
    ∧ checksum [0xFF, 0xFE, 0x00, 0x01] = 0xFFFF :=
  ⟨by decide, C8_checksum_of_zero_sum [0xFF, 0xFE, 0x00, 0x01] (by decide) (Or.inr (by decide))⟩

/-- C9: for every odd-length buffer, appending one zero byte does not change `checksum`:
explicit padding agrees with the virtual zero padding of the final odd byte. -/
theorem C9_checksum_pad_zero (B : List Byte) (hodd : B.length % 2 = 1) :
    checksum (B ++ [0x00]) = checksum B := by
  apply checksum_congr
  rw [sumLoop_eq 0 _ (by decide), sumLoop_eq 0 _ (by decide)]
  unfold rfc1071.wordSum
  rw [words_append_zero B hodd]

/-- Witness of C9 on the three-byte buffer `01 02 03`. -/
theorem C9_checksum_pad_zero_witness :
    ([1, 2, 3] : List Byte).length % 2 = 1
    ∧ checksum ([1, 2, 3] ++ [0x00]) = checksum [1, 2, 3] :=
  ⟨by decide, C9_checksum_pad_zero [1, 2, 3] (by decide)⟩

/-! ## Claims about `WriteAs` -/

theorem payload_eq_of_le (payload : List Byte) (h : payload.length ≤ 65507) :
    WriteAs.payload payload = payload := by
  unfold WriteAs.payload
  rw [if_neg (by omega)]

theorem payload_eq_of_gt (payload : List Byte) (h : 65507 < payload.length) :
    WriteAs.payload payload = payload.take 65507 := by
  unfold WriteAs.payload
  rw [if_pos (by omega)]

/-- C3: for IPv4 destination and source addresses and a payload of `N ≤ 65507` bytes, the
buffer `WriteAs` assembles has length `28 + N`; bytes 12-15 are the source address, bytes
16-19 the destination address, bytes 20-21 the source port and bytes 22-23 the
destination port (big-endian), and the bytes from offset 28 on are the payload,
unchanged. -/
theorem C3_WriteAs_layout (darwin : Bool) (c : Conn) (ipsrc : List Byte) (port : Word16)
    (payload : List Byte) (hsrc : (To4 ipsrc).length = 4) (hdst : (To4 c.IPDst).length = 4)
    (hN : payload.length ≤ 65507) :
    ∃ a, WriteAs.sendtoArgs darwin c ipsrc port payload = .ok a
      ∧ a.p.length = 28 + payload.length
      ∧ (a.p.drop 12).take 4 = To4 ipsrc
      ∧ (a.p.drop 16).take 4 = To4 c.IPDst
      ∧ be16At a.p 20 = port.val
      ∧ be16At a.p 22 = c.DstPort.val
      ∧ a.p.drop 28 = payload := by
  refine ⟨_, sendtoArgs_ok darwin c ipsrc port payload, ?_⟩
  have hs := copy4_toList Bytes4.zero (To4 ipsrc) hsrc
  have hd := copy4_toList Bytes4.zero (To4 c.IPDst) hdst
  have hp := payload_eq_of_le payload hN
  have h1 := be16_u8 port.val port.isLt
  have h2 := be16_u8 c.DstPort.val c.DstPort.isLt
  simp only [Bytes4.toList] at hs hd
  cases darwin <;>
    simp only [if_true, if_false, Bool.false_eq_true, bb_cons, swap23_cons, List.length_cons,
      List.drop_succ_cons, List.drop_zero, List.take_succ_cons, List.take_zero, be16At,
      List.getD_cons_succ, List.getD_cons_zero, hs, hd, hp, h1, h2, and_true] <;>
    omega

/-- Witness of C3: destination 203.0.113.5:9999, source 10.0.0.1:4000, payload "ping"
gives length 32, bytes 12-15 = 0A 00 00 01, bytes 20-21 = 0F A0 (port 4000) and bytes
24-25 = 00 0C. -/
theorem C3_WriteAs_layout_witness :
    (To4 [10, 0, 0, 1]).length = 4 ∧ (To4 [203, 0, 113, 5]).length = 4
    ∧ ([112, 105, 110, 103] : List Byte).length ≤ 65507
    ∧ ∃ a, WriteAs.sendtoArgs false
          { fd := 3, IPSrc := [127, 0, 0, 1], IPDst := [203, 0, 113, 5], SrcPort := 54321,
            DstPort := 9999 }
          [10, 0, 0, 1] 4000 [112, 105, 110, 103] = .ok a
      ∧ a.p.length = 32
      ∧ (a.p.drop 12).take 4 = [0x0A, 0x00, 0x00, 0x01]
      ∧ (a.p.drop 16).take 4 = [203, 0, 113, 5]
      ∧ be16At a.p 20 = 4000 ∧ (a.p.drop 20).take 2 = [0x0F, 0xA0]
      ∧ be16At a.p 22 = 9999
      ∧ (a.p.drop 24).take 2 = [0x00, 0x0C]
      ∧ a.p.drop 28 = [112, 105, 110, 103] := by
  refine ⟨by decide, by decide, by decide, ?_⟩
  obtain ⟨a, ha, h1, h2, h3, h4, h5, h6⟩ :=
    C3_WriteAs_layout false
      { fd := 3, IPSrc := [127, 0, 0, 1], IPDst := [203, 0, 113, 5], SrcPort := 54321,
        DstPort := 9999 }
      [10, 0, 0, 1] 4000 [112, 105, 110, 103] (by decide) (by decide) (by decide)
  refine ⟨a, ha, h1, h2, h3, h4, ?_, h5, ?_, h6⟩
  · rw [sendtoArgs_ok] at ha
    cases ha
    rfl
  · rw [sendtoArgs_ok] at ha
    cases ha
    rfl

theorem putUint16_u16 (n : Nat) (h : n < 65536) : putUint16 (u16 n) = be16 n := by
  simp only [putUint16, be16, u16, Nat.mod_eq_of_lt h]

/-- The UDP checksum `WriteAs` stores is `checksum` of pseudo-header, UDP header with a
zero checksum field, and payload. -/
theorem udp_csum (c : Conn) (ipsrc : List Byte) (port : Word16) (payload : List Byte) :
    (WriteAs.udp c ipsrc port payload).csum =
      checksum
        ((copy4 Bytes4.zero (To4 ipsrc)).toList ++ (copy4 Bytes4.zero (To4 c.IPDst)).toList
            ++ [0x00, 17] ++ be16 (8 + (WriteAs.payload payload).length)
          ++ (be16 port.val ++ be16 c.DstPort.val
            ++ be16 (8 + (WriteAs.payload payload).length) ++ [0x00, 0x00])
          ++ WriteAs.payload payload) := by
  have hle := payload_length_le payload
  have hu := putUint16_u16 (8 + (WriteAs.payload payload).length) (by omega)
  show checksum (binary_Write_pseudohdr _ ++ binary_Write_udphdr _ ++ binary_Write_bytes _) = _
  simp only [binary_Write_pseudohdr, binary_Write_udphdr, binary_Write_bytes, hu]
  rfl

/-- C2: for IPv4 source and destination addresses, every source port and every payload,
the UDP checksum field of the assembled packet (bytes 26-27, big-endian) is
`checksum (P ++ U ++ D)`: `D` the (possibly truncated) payload, `P` the 12-byte
pseudo-header (source IP, destination IP, 0x00, 17, UDP length `8 + len D`), `U` the UDP
header (source port, destination port, `8 + len D`, 0x0000), each field big-endian. -/
theorem C2_udp_checksum_field (darwin : Bool) (c : Conn) (ipsrc : List Byte) (port : Word16)
    (payload : List Byte) (hsrc : (To4 ipsrc).length = 4) (hdst : (To4 c.IPDst).length = 4) :
    ∃ a, WriteAs.sendtoArgs darwin c ipsrc port payload = .ok a
      ∧ 8 + (WriteAs.payload payload).length < 65536
      ∧ be16At a.p 26 =
          (checksum
            ((To4 ipsrc ++ To4 c.IPDst ++ [0x00, 17]
                ++ be16 (8 + (WriteAs.payload payload).length))
              ++ (be16 port.val ++ be16 c.DstPort.val
                ++ be16 (8 + (WriteAs.payload payload).length) ++ [0x00, 0x00])
              ++ WriteAs.payload payload)).val := by
  refine ⟨_, sendtoArgs_ok darwin c ipsrc port payload, ?_, ?_⟩
  · have hle := payload_length_le payload
    omega
  · have hs := copy4_toList Bytes4.zero (To4 ipsrc) hsrc
    have hd := copy4_toList Bytes4.zero (To4 c.IPDst) hdst
    have hc := udp_csum c ipsrc port payload
    rw [hs, hd] at hc
    rw [← hc]
    have h1 := be16_u8 (WriteAs.udp c ipsrc port payload).csum.val
      (WriteAs.udp c ipsrc port payload).csum.isLt
    cases darwin <;>
      simp only [if_true, if_false, Bool.false_eq_true, bb_cons, swap23_cons, be16At,
        List.getD_cons_succ, List.getD_cons_zero, h1]

/-- Witness of C2: destination 203.0.113.5:9999, source 10.0.0.1:4000, payload "ping";
the stored UDP checksum is `0xA44F`. -/
theorem C2_udp_checksum_field_witness :
    (To4 [10, 0, 0, 1]).length = 4 ∧ (To4 [203, 0, 113, 5]).length = 4
    ∧ ∃ a, WriteAs.sendtoArgs false
          { fd := 3, IPSrc := [127, 0, 0, 1], IPDst := [203, 0, 113, 5], SrcPort := 54321,
            DstPort := 9999 }
          [10, 0, 0, 1] 4000 [112, 105, 110, 103] = .ok a
      ∧ be16At a.p 26 =
          (checksum
            [10, 0, 0, 1, 203, 0, 113, 5, 0x00, 17, 0x00, 0x0C,
              0x0F, 0xA0, 0x27, 0x0F, 0x00, 0x0C, 0x00, 0x00,
              112, 105, 110, 103]).val
      ∧ be16At a.p 26 = 0xA44F := by
  refine ⟨by decide, by decide, ?_⟩
  obtain ⟨a, ha, _, h⟩ :=
    C2_udp_checksum_field false
      { fd := 3, IPSrc := [127, 0, 0, 1], IPDst := [203, 0, 113, 5], SrcPort := 54321,
        DstPort := 9999 }
      [10, 0, 0, 1] 4000 [112, 105, 110, 103] (by decide) (by decide)
  have hv : (checksum
            [10, 0, 0, 1, 203, 0, 113, 5, 0x00, 17, 0x00, 0x0C,
              0x0F, 0xA0, 0x27, 0x0F, 0x00, 0x0C, 0x00, 0x00,
              112, 105, 110, 103]).val = 0xA44F := by
    rw [checksum_val_eq_rfc1071 _ (by decide)]
    decide
  refine ⟨a, ha, ?_, ?_⟩
  · rw [h]
    rfl
  · rw [h, ← hv]
    rfl

/-- C4: for every input, with `D` the (possibly truncated) payload and the platform byte
swap disabled, the IP total-length field (bytes 2-3, big-endian) is `20 + 8 + len D`, the
UDP length field (bytes 24-25, big-endian) is `8 + len D`, the total-length field is the
length of the assembled buffer, and neither conversion to `uint16` loses information. -/
theorem C4_length_fields (c : Conn) (ipsrc : List Byte) (port : Word16)
    (payload : List Byte) :
    ∃ a, WriteAs.sendtoArgs false c ipsrc port payload = .ok a
      ∧ be16At a.p 2 = 20 + 8 + (WriteAs.payload payload).length
      ∧ be16At a.p 24 = 8 + (WriteAs.payload payload).length
      ∧ be16At a.p 2 = a.p.length
      ∧ (u16 (20 + (8 + (WriteAs.payload payload).length))).val
          = 20 + (8 + (WriteAs.payload payload).length)
      ∧ (u16 (8 + (WriteAs.payload payload).length)).val
          = 8 + (WriteAs.payload payload).length := by
  refine ⟨_, sendtoArgs_ok false c ipsrc port payload, ?_⟩
  have hle := payload_length_le payload
  have hi := ip_iplen c ipsrc payload
  have hu := udp_ulen c ipsrc port payload
  have h1 := be16_u8 (WriteAs.ip c ipsrc payload).iplen.val (WriteAs.ip c ipsrc payload).iplen.isLt
  have h2 := be16_u8 (WriteAs.udp c ipsrc port payload).ulen.val
    (WriteAs.udp c ipsrc port payload).ulen.isLt
  have hlen := bb_length c ipsrc port payload
  have hb2 : be16At (WriteAs.bb c ipsrc port payload) 2
      = 20 + (8 + (WriteAs.payload payload).length) := by
    rw [← hi, ← h1, bb_cons]
    rfl
  have hb24 : be16At (WriteAs.bb c ipsrc port payload) 24
      = 8 + (WriteAs.payload payload).length := by
    rw [← hu, ← h2, bb_cons]
    rfl
  simp only [Bool.false_eq_true, if_false, hb2, hb24, hlen, u16]
  refine ⟨by omega, trivial, by omega, by omega, by omega⟩

/-- C5: truncation boundary of `WriteAs`. A payload of at most 65507 bytes is the payload
section of the assembled packet; of a longer payload the payload section is exactly the
first 65507 bytes and the packet is exactly 65535 bytes long; a payload of 65508 bytes
loses exactly its last byte. -/
theorem C5_truncation_boundary (darwin : Bool) (c : Conn) (ipsrc : List Byte)
    (port : Word16) (payload : List Byte) :
    ∃ a, WriteAs.sendtoArgs darwin c ipsrc port payload = .ok a
      ∧ (payload.length ≤ 65507 → a.p.drop 28 = payload)
      ∧ (65507 < payload.length → a.p.drop 28 = payload.take 65507 ∧ a.p.length = 65535)
      ∧ (payload.length = 65508 → a.p.drop 28 = payload.dropLast) := by
  refine ⟨_, sendtoArgs_ok darwin c ipsrc port payload, ?_⟩
  have hdrop : (if darwin = true then swap23 (WriteAs.bb c ipsrc port payload)
      else WriteAs.bb c ipsrc port payload).drop 28 = WriteAs.payload payload := by
    cases darwin <;>
      simp only [if_true, if_false, Bool.false_eq_true, bb_cons, swap23_cons,
        List.drop_succ_cons, List.drop_zero]
  have hlen : (if darwin = true then swap23 (WriteAs.bb c ipsrc port payload)
      else WriteAs.bb c ipsrc port payload).length = 28 + (WriteAs.payload payload).length := by
    cases darwin
    · simp only [Bool.false_eq_true, if_false, bb_length]
    · simp only [if_true, swap23, List.length_set, bb_length]
  simp only [hdrop, hlen]
  refine ⟨fun h => payload_eq_of_le payload h, fun h => ?_, fun h => ?_⟩
  · refine ⟨payload_eq_of_gt payload h, ?_⟩
    rw [payload_length]
    omega
  · rw [payload_eq_of_gt payload (by omega), List.dropLast_eq_take, h]

/-- Witness of C5 on a payload of 65508 zero bytes: the packet is 65535 bytes long and
carries the first 65507 bytes of the payload. -/
theorem C5_truncation_boundary_witness :
    65507 < (List.replicate 65508 (0 : Byte)).length
    ∧ ∃ a, WriteAs.sendtoArgs false
          { fd := 3, IPSrc := [127, 0, 0, 1], IPDst := [203, 0, 113, 5], SrcPort := 54321,
            DstPort := 9999 }
          [10, 0, 0, 1] 4000 (List.replicate 65508 0) = .ok a
      ∧ a.p.drop 28 = (List.replicate 65508 (0 : Byte)).take 65507
      ∧ a.p.length = 65535
      ∧ a.p.drop 28 = (List.replicate 65508 (0 : Byte)).dropLast := by
  have hl : (List.replicate 65508 (0 : Byte)).length = 65508 := List.length_replicate _ _
  refine ⟨by rw [hl]; omega, ?_⟩
  obtain ⟨a, ha, _, h2, h3⟩ :=
    C5_truncation_boundary false
      { fd := 3, IPSrc := [127, 0, 0, 1], IPDst := [203, 0, 113, 5], SrcPort := 54321,
        DstPort := 9999 }
      [10, 0, 0, 1] 4000 (List.replicate 65508 0)
  exact ⟨a, ha, (h2 (by rw [hl]; omega)).1, (h2 (by rw [hl]; omega)).2, h3 hl⟩

/-- C6: the oversized-packet branch of `WriteAs` is unreachable. For every source address,
port and payload of any length, after the truncation step the total length
`20 + 8 + len payload` is at most 65535, and `WriteAs` never returns the error
"message is too large to fit into a packet", whatever the send primitive does. -/
theorem C6_too_large_unreachable (darwin : Bool) (sendto : SendtoArgs → Option Nat)
    (c : Conn) (ipsrc : List Byte) (port : Word16) (payload : List Byte) :
    20 + 8 + (WriteAs.payload payload).length ≤ 65535
    ∧ WriteAs.sendtoArgs darwin c ipsrc port payload ≠ .error Error.tooLarge
    ∧ (WriteAs darwin sendto c ipsrc port payload).2 ≠ some Error.tooLarge := by
  have hle := payload_length_le payload
  refine ⟨by omega, ?_, ?_⟩
  · rw [sendtoArgs_ok]
    intro h
    cases h
  · unfold WriteAs
    rw [sendtoArgs_ok]
    simp only
    split
    · intro h
      cases h
    · intro h
      cases h

/-- C10: the header checksum methods do not depend on the prior content of the checksum
field and are idempotent. For every `iphdr` and 16-bit `v`, `checksum()` from `csum = v`
gives the same header as from `csum = 0`, and calling it twice equals calling it once;
likewise `u.checksum(ip, p)` from `u.csum = v` and from `u.csum = 0`. -/
theorem C10_header_checksum_idempotent (h : iphdr) (u : udphdr) (v : Word16) (ip : iphdr)
    (p : List Byte) :
    iphdr.checksum { h with csum := v } = iphdr.checksum { h with csum := 0 }
    ∧ iphdr.checksum (iphdr.checksum h) = iphdr.checksum h
    ∧ udphdr.checksum { u with csum := v } ip p = udphdr.checksum { u with csum := 0 } ip p
    ∧ udphdr.checksum (udphdr.checksum u ip p) ip p = udphdr.checksum u ip p :=
  ⟨rfl, rfl, rfl, rfl⟩

/-! ## Claims about the header fields and the platform byte swap -/

theorem swap23_getElem? (l : List Byte) (i : Nat) (h2 : i ≠ 2) (h3 : i ≠ 3) :
    (swap23 l)[i]? = l[i]? := by
  unfold swap23
  rw [List.getElem?_set_ne (Ne.symm h3), List.getElem?_set_ne (Ne.symm h2)]

theorem swap23_length (l : List Byte) : (swap23 l).length = l.length := by
  unfold swap23
  rw [List.length_set, List.length_set]

/-- C11: platform byte-order quirk. For every input, the buffer transmitted when the swap
applies is the buffer transmitted when it does not apply with bytes 2 and 3 exchanged and
nothing else changed: every byte at an index other than 2 and 3 is identical; bytes 2-3
then hold the IP total length in little-endian order, and in big-endian order when the
swap does not apply. -/
theorem C11_platform_byte_swap (c : Conn) (ipsrc : List Byte) (port : Word16)
    (payload : List Byte) :
    ∃ a b, WriteAs.sendtoArgs true c ipsrc port payload = .ok a
      ∧ WriteAs.sendtoArgs false c ipsrc port payload = .ok b
      ∧ a.p = swap23 b.p
      ∧ a.p.length = b.p.length
      ∧ a.p.getD 2 0 = b.p.getD 3 0 ∧ a.p.getD 3 0 = b.p.getD 2 0
      ∧ (∀ i, i ≠ 2 → i ≠ 3 → a.p[i]? = b.p[i]?)
      ∧ (a.p.getD 2 0).val + 256 * (a.p.getD 3 0).val
          = 20 + 8 + (WriteAs.payload payload).length
      ∧ be16At b.p 2 = 20 + 8 + (WriteAs.payload payload).length
      ∧ a.fd = b.fd ∧ a.flags = b.flags ∧ a.addr = b.addr := by
  refine ⟨_, _, sendtoArgs_ok true c ipsrc port payload,
    sendtoArgs_ok false c ipsrc port payload, ?_⟩
  have hi := ip_iplen c ipsrc payload
  have h1 := be16_u8 (WriteAs.ip c ipsrc payload).iplen.val (WriteAs.ip c ipsrc payload).iplen.isLt
  have hb2 : be16At (WriteAs.bb c ipsrc port payload) 2
      = 20 + 8 + (WriteAs.payload payload).length := by
    rw [Nat.add_assoc, ← hi, ← h1, bb_cons]
    rfl
  have hle : ((swap23 (WriteAs.bb c ipsrc port payload)).getD 2 0).val
      + 256 * ((swap23 (WriteAs.bb c ipsrc port payload)).getD 3 0).val
      = 20 + 8 + (WriteAs.payload payload).length := by
    rw [Nat.add_assoc 20 8, ← hi, ← h1, bb_cons, swap23_cons]
    simp only [List.getD_cons_succ, List.getD_cons_zero]
    omega
  simp only [if_true, Bool.false_eq_true, if_false]
  refine ⟨trivial, swap23_length _, ?_, ?_, ?_, hle, hb2, trivial, trivial, trivial⟩
  · rw [bb_cons, swap23_cons]
    rfl
  · rw [bb_cons, swap23_cons]
    rfl
  · intro i h2 h3
    exact swap23_getElem? _ i h2 h3

/-- Witness of C11 on the packet for destination 203.0.113.5:9999, source
10.0.0.1:4000 and payload "ping": byte 10 (IP checksum) is the same with and without the
swap, and bytes 2-3 are `20 00` with it and `00 20` without it. -/
theorem C11_platform_byte_swap_witness :
    ∃ a b, WriteAs.sendtoArgs true
          { fd := 3, IPSrc := [127, 0, 0, 1], IPDst := [203, 0, 113, 5], SrcPort := 54321,
            DstPort := 9999 }
          [10, 0, 0, 1] 4000 [112, 105, 110, 103] = .ok a
      ∧ WriteAs.sendtoArgs false
          { fd := 3, IPSrc := [127, 0, 0, 1], IPDst := [203, 0, 113, 5], SrcPort := 54321,
            DstPort := 9999 }
          [10, 0, 0, 1] 4000 [112, 105, 110, 103] = .ok b
      ∧ a.p[10]? = b.p[10]?
      ∧ (a.p.drop 2).take 2 = [0x20, 0x00] ∧ (b.p.drop 2).take 2 = [0x00, 0x20] := by
  obtain ⟨a, b, ha, hb, _, _, _, _, h, _⟩ :=
    C11_platform_byte_swap
      { fd := 3, IPSrc := [127, 0, 0, 1], IPDst := [203, 0, 113, 5], SrcPort := 54321,
        DstPort := 9999 }
      [10, 0, 0, 1] 4000 [112, 105, 110, 103]
  refine ⟨a, b, ha, hb, h 10 (by decide) (by decide), ?_, ?_⟩
  · rw [sendtoArgs_ok] at ha
    cases ha
    rfl
  · rw [sendtoArgs_ok] at hb
    cases hb
    rfl

/-- C12: for every input, the constant fields of the IPv4 header in the assembled buffer
are byte 0 = 0x45, byte 1 = 0, bytes 4-5 = 0x12 0x34, bytes 6-7 = 0x00 0x00,
byte 8 = 64 and byte 9 = 17; read back at these offsets, the fields are version/length
0x45, type of service 0, identification 0x1234, fragment offset 0, time to live 64 and
protocol 17. -/
theorem C12_constant_fields (darwin : Bool) (c : Conn) (ipsrc : List Byte) (port : Word16)
    (payload : List Byte) :
    ∃ a, WriteAs.sendtoArgs darwin c ipsrc port payload = .ok a
      ∧ a.p.take 2 = [0x45, 0]
      ∧ (a.p.drop 4).take 6 = [0x12, 0x34, 0x00, 0x00, 64, 17]
      ∧ a.p.getD 0 0 = 0x45 ∧ a.p.getD 1 0 = 0
      ∧ be16At a.p 4 = 0x1234 ∧ be16At a.p 6 = 0
      ∧ a.p.getD 8 0 = 64 ∧ a.p.getD 9 0 = 17 := by
  refine ⟨_, sendtoArgs_ok darwin c ipsrc port payload, ?_⟩
  cases darwin
  · simp only [Bool.false_eq_true, if_false]
    rw [bb_cons]
    exact ⟨rfl, rfl, rfl, rfl, rfl, rfl, rfl, rfl⟩
  · simp only [if_true]
    rw [bb_cons, swap23_cons]
    exact ⟨rfl, rfl, rfl, rfl, rfl, rfl, rfl, rfl⟩

/-- The IP checksum `WriteAs` stores is `checksum` of the 20 header bytes with a zero
checksum field. -/
theorem ip_csum (c : Conn) (ipsrc : List Byte) (payload : List Byte) :
    (WriteAs.ip c ipsrc payload).csum =
      checksum
        [0x45, 0, u8 ((WriteAs.ip c ipsrc payload).iplen.val / 256),
          u8 (WriteAs.ip c ipsrc payload).iplen.val,
          u8 (0x1234 / 256), u8 0x1234, u8 (0 / 256), u8 0, 64, IPPROTO_UDP, 0, 0,
          (copy4 Bytes4.zero (To4 ipsrc)).b0, (copy4 Bytes4.zero (To4 ipsrc)).b1,
          (copy4 Bytes4.zero (To4 ipsrc)).b2, (copy4 Bytes4.zero (To4 ipsrc)).b3,
          (copy4 Bytes4.zero (To4 c.IPDst)).b0, (copy4 Bytes4.zero (To4 c.IPDst)).b1,
          (copy4 Bytes4.zero (To4 c.IPDst)).b2, (copy4 Bytes4.zero (To4 c.IPDst)).b3] := by
  show checksum (binary_Write_iphdr _) = checksum _
  apply congrArg
  simp only [binary_Write_iphdr, putUint16, Bytes4.toList, List.cons_append, List.nil_append,
    List.append_assoc]
  rfl

/-- C13: for every input, with the platform byte swap disabled, the IP header checksum
field of the assembled buffer (bytes 10-11, big-endian) is `checksum` of the first 20
bytes of that buffer with bytes 10 and 11 replaced by zero. -/
theorem C13_ip_checksum_field (c : Conn) (ipsrc : List Byte) (port : Word16)
    (payload : List Byte) :
    ∃ a, WriteAs.sendtoArgs false c ipsrc port payload = .ok a
      ∧ be16At a.p 10 = (checksum (((a.p.take 20).set 10 0).set 11 0)).val := by
  refine ⟨_, sendtoArgs_ok false c ipsrc port payload, ?_⟩
  have h1 := be16_u8 (WriteAs.ip c ipsrc payload).csum.val (WriteAs.ip c ipsrc payload).csum.isLt
  have hc := ip_csum c ipsrc payload
  simp only [Bool.false_eq_true, if_false]
  rw [bb_cons]
  simp only [List.take_succ_cons, List.take_zero, List.set_cons_succ, List.set_cons_zero,
    be16At, List.getD_cons_succ, List.getD_cons_zero, h1]
  rw [← hc]

/-! ## Claims about the result of `WriteAs`, `Write` and `Close` -/

theorem packet_length (darwin : Bool) (c : Conn) (ipsrc : List Byte) (port : Word16)
    (payload : List Byte) :
    (if darwin = true then swap23 (WriteAs.bb c ipsrc port payload)
      else WriteAs.bb c ipsrc port payload).length = 28 + (WriteAs.payload payload).length := by
  cases darwin
  · simp only [Bool.false_eq_true, if_false, bb_length]
  · simp only [if_true, swap23_length, bb_length]

/-- The value `WriteAs` returns when the send primitive succeeds. -/
theorem WriteAs_of_sendto_none (darwin : Bool) (sendto : SendtoArgs → Option Nat) (c : Conn)
    (ipsrc : List Byte) (port : Word16) (payload : List Byte) (h : ∀ a, sendto a = none) :
    WriteAs darwin sendto c ipsrc port payload
      = (((28 + min payload.length 65507 : Nat) : Int), none) := by
  have hlen := packet_length darwin c ipsrc port payload
  rw [payload_length] at hlen
  unfold WriteAs
  rw [sendtoArgs_ok]
  simp only [h, hlen]

/-- Counterexample to C14: for a payload of 70000 bytes and a succeeding send primitive,
`WriteAs` returns `n = 65535`, which is 28 plus the 65507 bytes sent but is not larger
than the length of the payload it was given. -/
theorem C14_WriteAs_result_counterexample :
    WriteAs false (fun _ => none)
        { fd := 3, IPSrc := [127, 0, 0, 1], IPDst := [203, 0, 113, 5], SrcPort := 54321,
          DstPort := 9999 }
        [10, 0, 0, 1] 4000 (List.replicate 70000 0) = (65535, none)
    ∧ (List.replicate 70000 (0 : Byte)).length = 70000
    ∧ ¬ ((List.replicate 70000 (0 : Byte)).length < 65535) := by
  have hl : (List.replicate 70000 (0 : Byte)).length = 70000 := List.length_replicate _ _
  refine ⟨?_, hl, by rw [hl]; omega⟩
  rw [WriteAs_of_sendto_none false (fun _ => none) _ _ _ _ (fun _ => rfl), hl]
  rfl

/-- C14 (amended): result of `WriteAs`. For every input, if the send primitive succeeds
`WriteAs` returns `(n, nil)` with `n` the length of the transmitted buffer,
`n = 28 + min (len payload) 65507`, header bytes included, so `n` is larger than the
length of the payload placed in the packet, and larger than the length of the payload
given whenever that is below 65535; if the send primitive fails with an error, `WriteAs`
returns `(0, that error)`. -/
theorem C14_WriteAs_result (darwin : Bool) (sendto : SendtoArgs → Option Nat) (c : Conn)
    (ipsrc : List Byte) (port : Word16) (payload : List Byte) :
    ∃ a, WriteAs.sendtoArgs darwin c ipsrc port payload = .ok a
      ∧ a.p.length = 28 + min payload.length 65507
      ∧ (WriteAs.payload payload).length < a.p.length
      ∧ (payload.length < 65535 → payload.length < a.p.length)
      ∧ (sendto a = none →
          WriteAs darwin sendto c ipsrc port payload = ((a.p.length : Int), none))
      ∧ (∀ errno, sendto a = some errno →
          WriteAs darwin sendto c ipsrc port payload = (0, some (Error.sendto errno))) := by
  refine ⟨_, sendtoArgs_ok darwin c ipsrc port payload, ?_⟩
  have hlen := packet_length darwin c ipsrc port payload
  have hpl := payload_length payload
  simp only [hlen]
  refine ⟨by omega, by omega, fun h => by omega, fun h => ?_, fun errno h => ?_⟩
  · unfold WriteAs
    rw [sendtoArgs_ok]
    simp only [h, hlen]
  · unfold WriteAs
    rw [sendtoArgs_ok]
    simp only [h]

/-- Witness of C14 (amended) on the "ping" packet: a succeeding send primitive gives `(32, nil)`,
one failing with errno 1 gives `(0, errno 1)`. -/
theorem C14_WriteAs_result_witness :
    WriteAs false (fun _ => none)
        { fd := 3, IPSrc := [127, 0, 0, 1], IPDst := [203, 0, 113, 5], SrcPort := 54321,
          DstPort := 9999 }
        [10, 0, 0, 1] 4000 [112, 105, 110, 103] = (32, none)
    ∧ WriteAs false (fun _ => some 1)
        { fd := 3, IPSrc := [127, 0, 0, 1], IPDst := [203, 0, 113, 5], SrcPort := 54321,
          DstPort := 9999 }
        [10, 0, 0, 1] 4000 [112, 105, 110, 103] = (0, some (Error.sendto 1)) := by
  constructor
  · obtain ⟨a, _, h1, _, _, h2, _⟩ :=
      C14_WriteAs_result false (fun _ => none)
        { fd := 3, IPSrc := [127, 0, 0, 1], IPDst := [203, 0, 113, 5], SrcPort := 54321,
          DstPort := 9999 }
        [10, 0, 0, 1] 4000 [112, 105, 110, 103]
    rw [h2 rfl, h1]
    rfl
  · obtain ⟨a, _, _, _, _, _, h3⟩ :=
      C14_WriteAs_result false (fun _ => some 1)
        { fd := 3, IPSrc := [127, 0, 0, 1], IPDst := [203, 0, 113, 5], SrcPort := 54321,
          DstPort := 9999 }
        [10, 0, 0, 1] 4000 [112, 105, 110, 103]
    exact h3 1 rfl

/-- The system calls and the result of `WriteAs`: one call of `unix.Sendto`, whose result
decides what `WriteAs` returns. -/
theorem run_eq (darwin : Bool) (os : OS) (t : List Syscall) (c : Conn) (ipsrc : List Byte)
    (port : Word16) (payload : List Byte) :
    ∃ a, WriteAs.sendtoArgs darwin c ipsrc port payload = .ok a
      ∧ a.fd = c.fd
      ∧ WriteAs.run darwin os t c ipsrc port payload =
          (t ++ [Syscall.sendto a],
            match os t (Syscall.sendto a) with
            | some errno => (0, some (Error.sendto errno))
            | none => ((a.p.length : Int), none)) := by
  refine ⟨_, sendtoArgs_ok darwin c ipsrc port payload, rfl, ?_⟩
  unfold WriteAs.run
  rw [sendtoArgs_ok]

/-- C15: for every connection and payload, `Write(p)` returns the same result and
transmits the same bytes as `WriteAs(c.IPSrc, c.SrcPort, p)`: the returned values agree
for every send primitive, and so do the system calls made, which are one call of
`unix.Sendto` with the buffer assembled for source `c.IPSrc`, `c.SrcPort`. -/
theorem C15_Write_eq_WriteAs (darwin : Bool) (sendto : SendtoArgs → Option Nat) (os : OS)
    (t : List Syscall) (c : Conn) (p : List Byte) :
    Write darwin sendto c p = WriteAs darwin sendto c c.IPSrc c.SrcPort p
    ∧ Write.run darwin os t c p = WriteAs.run darwin os t c c.IPSrc c.SrcPort p
    ∧ ∃ a, WriteAs.sendtoArgs darwin c c.IPSrc c.SrcPort p = .ok a
        ∧ (Write.run darwin os t c p).1 = t ++ [Syscall.sendto a] := by
  refine ⟨rfl, rfl, ?_⟩
  obtain ⟨a, ha, _, h⟩ := run_eq darwin os t c c.IPSrc c.SrcPort p
  refine ⟨a, ha, ?_⟩
  unfold Write.run
  rw [h]

/-- Counterexample to C16: on a connection with descriptor 3, after `Close`, `WriteAs` and
`Write` still call `unix.Sendto` on descriptor 3 with a 32-byte packet, and the error they
return is the errno of that call (here `EBADF`), not an error of their own. -/
theorem C16_write_after_close_counterexample :
    (∃ a, WriteAs.run false osClosedEBADF
          (Close osClosedEBADF []
            { fd := 3, IPSrc := [127, 0, 0, 1], IPDst := [203, 0, 113, 5], SrcPort := 54321,
              DstPort := 9999 }).1
          { fd := 3, IPSrc := [127, 0, 0, 1], IPDst := [203, 0, 113, 5], SrcPort := 54321,
            DstPort := 9999 }
          [10, 0, 0, 1] 4000 [112, 105, 110, 103]
        = ([Syscall.close 3, Syscall.sendto a], (0, some (Error.sendto 9)))
      ∧ a.fd = 3 ∧ a.p.length = 32)
    ∧ (∃ a, Write.run false osClosedEBADF
          (Close osClosedEBADF []
            { fd := 3, IPSrc := [127, 0, 0, 1], IPDst := [203, 0, 113, 5], SrcPort := 54321,
              DstPort := 9999 }).1
          { fd := 3, IPSrc := [127, 0, 0, 1], IPDst := [203, 0, 113, 5], SrcPort := 54321,
            DstPort := 9999 }
          [112, 105, 110, 103]
        = ([Syscall.close 3, Syscall.sendto a], (0, some (Error.sendto 9)))
      ∧ a.fd = 3 ∧ a.p.length = 32) := by
  constructor
  · obtain ⟨a, ha, hfd, h⟩ := run_eq false osClosedEBADF [Syscall.close 3]
      { fd := 3, IPSrc := [127, 0, 0, 1], IPDst := [203, 0, 113, 5], SrcPort := 54321,
        DstPort := 9999 }
      [10, 0, 0, 1] 4000 [112, 105, 110, 103]
    refine ⟨a, ?_, hfd, ?_⟩
    · simp only [Close, List.nil_append]
      rw [h]
      simp [osClosedEBADF, hfd]
    · rw [sendtoArgs_ok] at ha
      cases ha
      rfl
  · obtain ⟨a, ha, hfd, h⟩ := run_eq false osClosedEBADF [Syscall.close 3]
      { fd := 3, IPSrc := [127, 0, 0, 1], IPDst := [203, 0, 113, 5], SrcPort := 54321,
        DstPort := 9999 }
      [127, 0, 0, 1] 54321 [112, 105, 110, 103]
    refine ⟨a, ?_, hfd, ?_⟩
    · simp only [Close, List.nil_append, Write.run]
      rw [h]
      simp [osClosedEBADF, hfd]
    · rw [sendtoArgs_ok] at ha
      cases ha
      rfl

/-- C16 (amended): `Close` only calls `unix.Close` on the descriptor. After it has been
called on a connection (and whatever calls `t2` were made since), every later call of
`WriteAs` or `Write` still assembles the packet and calls `unix.Sendto` once, on the
descriptor of the connection; it returns `(0, err)` with the error of that call if it
fails, and the length of the buffer with no error if it succeeds. -/
theorem C16_write_after_close (darwin : Bool) (os : OS) (t t2 : List Syscall) (c : Conn)
    (ipsrc : List Byte) (port : Word16) (payload : List Byte) :
    (Close os t c).1 = t ++ [Syscall.close c.fd]
    ∧ (Close os t c).2 = os t (Syscall.close c.fd)
    ∧ Syscall.close c.fd ∈ (Close os t c).1 ++ t2
    ∧ (∃ a, WriteAs.sendtoArgs darwin c ipsrc port payload = .ok a
        ∧ a.fd = c.fd
        ∧ (WriteAs.run darwin os ((Close os t c).1 ++ t2) c ipsrc port payload).1
            = (Close os t c).1 ++ t2 ++ [Syscall.sendto a]
        ∧ (∀ errno, os ((Close os t c).1 ++ t2) (Syscall.sendto a) = some errno →
            (WriteAs.run darwin os ((Close os t c).1 ++ t2) c ipsrc port payload).2
              = (0, some (Error.sendto errno)))
        ∧ (os ((Close os t c).1 ++ t2) (Syscall.sendto a) = none →
            (WriteAs.run darwin os ((Close os t c).1 ++ t2) c ipsrc port payload).2
              = ((a.p.length : Int), none)))
    ∧ Write.run darwin os ((Close os t c).1 ++ t2) c payload
        = WriteAs.run darwin os ((Close os t c).1 ++ t2) c c.IPSrc c.SrcPort payload := by
  refine ⟨rfl, rfl, ?_, ?_, rfl⟩
  · simp [Close]
  · obtain ⟨a, ha, hfd, h⟩ := run_eq darwin os ((Close os t c).1 ++ t2) c ipsrc port payload
    refine ⟨a, ha, hfd, ?_, fun errno he => ?_, fun he => ?_⟩
    · rw [h]
    · rw [h]
      simp only [he]
    · rw [h]
      simp only [he]

/-- Witness of C16 (amended): after `Close` on descriptor 3, `WriteAs` adds one
`unix.Sendto` on descriptor 3 to the calls made. -/
theorem C16_write_after_close_witness :
    ∃ a, a.fd = 3
      ∧ (WriteAs.run false osClosedEBADF [Syscall.close 3]
          { fd := 3, IPSrc := [127, 0, 0, 1], IPDst := [203, 0, 113, 5], SrcPort := 54321,
            DstPort := 9999 }
          [10, 0, 0, 1] 4000 [112, 105, 110, 103]).1 = [Syscall.close 3, Syscall.sendto a] := by
  obtain ⟨_, _, _, ⟨a, _, hfd, h, _⟩, _⟩ :=
    C16_write_after_close false osClosedEBADF [] []
      { fd := 3, IPSrc := [127, 0, 0, 1], IPDst := [203, 0, 113, 5], SrcPort := 54321,
        DstPort := 9999 }
      [10, 0, 0, 1] 4000 [112, 105, 110, 103]
  exact ⟨a, hfd, h⟩

/-- Counterexample to C17: for the connection to 203.0.113.5:9999 the socket address
handed to `unix.Sendto` has address 0.0.0.0 and port 0, not the destination address. -/
theorem C17_sendto_addr_counterexample :
    ∃ a, WriteAs.sendtoArgs false
          { fd := 3, IPSrc := [127, 0, 0, 1], IPDst := [203, 0, 113, 5], SrcPort := 54321,
            DstPort := 9999 }
          [10, 0, 0, 1] 4000 [112, 105, 110, 103] = .ok a
      ∧ a.addr.Addr.toList = [0, 0, 0, 0]
      ∧ a.addr.Port = 0
      ∧ a.addr.Addr.toList ≠ To4 [203, 0, 113, 5] := by
  refine ⟨_, sendtoArgs_ok _ _ _ _ _, ?_, rfl, ?_⟩
  · rfl
  · decide

/-- C17 (amended): for every connection and input, whatever `IPDst` is, the socket
address `WriteAs` hands to `unix.Sendto` is the zero value of `unix.SockaddrInet4`
(address 0.0.0.0, port 0); the destination address of the connection is carried by the
destination field of the IP header of the transmitted packet (bytes 16-19), which holds
the 4-byte form of `IPDst` when it has one. -/
theorem C17_sendto_addr_zero (darwin : Bool) (c : Conn) (ipsrc : List Byte) (port : Word16)
    (payload : List Byte) :
    ∃ a, WriteAs.sendtoArgs darwin c ipsrc port payload = .ok a
      ∧ a.addr = { Port := 0, Addr := Bytes4.zero }
      ∧ a.addr.Addr.toList = [0, 0, 0, 0]
      ∧ a.addr.Port = 0
      ∧ (a.p.drop 16).take 4 = (copy4 Bytes4.zero (To4 c.IPDst)).toList
      ∧ ((To4 c.IPDst).length = 4 → (a.p.drop 16).take 4 = To4 c.IPDst) := by
  refine ⟨_, sendtoArgs_ok darwin c ipsrc port payload, rfl, rfl, rfl, ?_⟩
  have hfield : ((if darwin = true then swap23 (WriteAs.bb c ipsrc port payload)
      else WriteAs.bb c ipsrc port payload).drop 16).take 4
      = (copy4 Bytes4.zero (To4 c.IPDst)).toList := by
    cases darwin <;>
      simp only [if_true, if_false, Bool.false_eq_true, bb_cons, swap23_cons,
        List.drop_succ_cons, List.drop_zero, List.take_succ_cons, List.take_zero,
        Bytes4.toList]
  refine ⟨hfield, fun hdst => ?_⟩
  have hd := copy4_toList Bytes4.zero (To4 c.IPDst) hdst
  show ((if darwin = true then swap23 (WriteAs.bb c ipsrc port payload)
      else WriteAs.bb c ipsrc port payload).drop 16).take 4 = To4 c.IPDst
  rw [hfield, hd]

/-- Witness of C17 (amended): on the connection to 203.0.113.5:9999 the socket address is
zero and bytes 16-19 are the destination address; on a connection whose `IPDst` is nil
the socket address is zero as well. -/
theorem C17_sendto_addr_zero_witness :
    (To4 [203, 0, 113, 5]).length = 4
    ∧ (∃ a, WriteAs.sendtoArgs false
          { fd := 3, IPSrc := [127, 0, 0, 1], IPDst := [203, 0, 113, 5], SrcPort := 54321,
            DstPort := 9999 }
          [10, 0, 0, 1] 4000 [112, 105, 110, 103] = .ok a
      ∧ a.addr = { Port := 0, Addr := Bytes4.zero }
      ∧ (a.p.drop 16).take 4 = [203, 0, 113, 5])
    ∧ (∃ a, WriteAs.sendtoArgs false
          { fd := 3, IPSrc := [127, 0, 0, 1], IPDst := [], SrcPort := 54321, DstPort := 53 }
          [10, 0, 0, 1] 4000 [112, 105, 110, 103] = .ok a
      ∧ a.addr = { Port := 0, Addr := Bytes4.zero }
      ∧ (a.p.drop 16).take 4 = [0, 0, 0, 0]) := by
  refine ⟨by decide, ?_, ?_⟩
  · obtain ⟨a, ha, h1, _, _, _, h2⟩ :=
      C17_sendto_addr_zero false
        { fd := 3, IPSrc := [127, 0, 0, 1], IPDst := [203, 0, 113, 5], SrcPort := 54321,
          DstPort := 9999 }
        [10, 0, 0, 1] 4000 [112, 105, 110, 103]
    exact ⟨a, ha, h1, h2 (by decide)⟩
  · obtain ⟨a, ha, h1, _, _, h2, _⟩ :=
      C17_sendto_addr_zero false
        { fd := 3, IPSrc := [127, 0, 0, 1], IPDst := [], SrcPort := 54321, DstPort := 53 }
        [10, 0, 0, 1] 4000 [112, 105, 110, 103]
    exact ⟨a, ha, h1, h2⟩

/-! ## Receiver-side validity of the UDP checksum -/

theorem wordSum_append_even (A B : List Byte) (hA : A.length % 2 = 0) :
    rfc1071.wordSum (A ++ B) = rfc1071.wordSum A + rfc1071.wordSum B := by
  induction A using rfc1071.words.induct with
  | case1 b0 b1 buf ih =>
    have h : buf.length % 2 = 0 := by
      simp only [List.length_cons] at hA
      omega
    rw [List.cons_append, List.cons_append, wordSum_cons2, wordSum_cons2, ih h]
    omega
  | case2 b0 =>
    simp at hA
  | case3 =>
    rw [List.nil_append, wordSum_nil, Nat.zero_add]

theorem wordSum_pair (hi lo : Byte) : rfc1071.wordSum [hi, lo] = 256 * hi.val + lo.val := by
  rw [wordSum_cons2, wordSum_nil, Nat.add_zero]

theorem wordSum_padEven (l : List Byte) :
    rfc1071.wordSum (padEven l) = rfc1071.wordSum l := by
  unfold padEven
  split
  · rename_i h
    unfold rfc1071.wordSum
    rw [words_append_zero l h]
  · rfl

/-- A buffer that carries its own checksum at an even offset sums to `0xFFFF`: `X` is the
even-length part before the checksum field, `D` the part after it, and the words of `X`
do not sum to zero. -/
theorem fold_checksum_valid (X D : List Byte) (hX : X.length % 2 = 0)
    (hpos : 0 < rfc1071.wordSum X) (hlen : (X ++ [0, 0] ++ D).length ≤ 65535) :
    rfc1071.fold (rfc1071.wordSum (padEven
      (X ++ [u8 ((checksum (X ++ [0, 0] ++ D)).val / 256), u8 (checksum (X ++ [0, 0] ++ D)).val]
        ++ D))) = 0xFFFF := by
  have hc := checksum_val_eq_rfc1071 (X ++ [0, 0] ++ D) hlen
  have hb := be16_u8 (checksum (X ++ [0, 0] ++ D)).val (checksum (X ++ [0, 0] ++ D)).isLt
  have hX2 : ∀ a b : Byte, (X ++ [a, b]).length % 2 = 0 := by
    intro a b
    simp only [List.length_append, List.length_cons, List.length_nil]
    omega
  have hs0 : rfc1071.wordSum (X ++ [0, 0] ++ D) = rfc1071.wordSum X + rfc1071.wordSum D := by
    rw [wordSum_append_even _ _ (hX2 0 0), wordSum_append_even _ _ hX, wordSum_pair]
    simp
  rw [wordSum_padEven, wordSum_append_even _ _ (hX2 _ _), wordSum_append_even _ _ hX,
    wordSum_pair, hb, hc]
  unfold rfc1071.checksum
  rw [hs0]
  simp only
  unfold rfc1071.fold
  split <;> split <;> split <;> omega

theorem udp_csum_covered (c : Conn) (ipsrc : List Byte) (port : Word16)
    (payload : List Byte) :
    (WriteAs.udp c ipsrc port payload).csum =
      checksum (WriteAs.covered c ipsrc port payload ++ [0, 0] ++ WriteAs.payload payload) := by
  show checksum (binary_Write_pseudohdr _ ++ binary_Write_udphdr _ ++ binary_Write_bytes _)
    = checksum _
  apply congrArg
  simp only [binary_Write_pseudohdr, binary_Write_udphdr, binary_Write_bytes, putUint16,
    Bytes4.toList, WriteAs.covered, List.cons_append, List.nil_append, List.append_assoc]
  rfl

theorem covered_wordSum_pos (c : Conn) (ipsrc : List Byte) (port : Word16)
    (payload : List Byte) : 0 < rfc1071.wordSum (WriteAs.covered c ipsrc port payload) := by
  have h17 : IPPROTO_UDP.val = 17 := rfl
  simp only [WriteAs.covered, wordSum_cons2, wordSum_nil]
  omega

theorem receiverData_packet (darwin : Bool) (c : Conn) (ipsrc : List Byte) (port : Word16)
    (payload : List Byte) :
    receiverData (if darwin = true then swap23 (WriteAs.bb c ipsrc port payload)
        else WriteAs.bb c ipsrc port payload)
      = padEven (WriteAs.covered c ipsrc port payload
          ++ [u8 ((WriteAs.udp c ipsrc port payload).csum.val / 256),
              u8 (WriteAs.udp c ipsrc port payload).csum.val]
          ++ WriteAs.payload payload) := by
  cases darwin <;>
    simp only [if_true, if_false, Bool.false_eq_true, receiverData, bb_cons, swap23_cons,
      List.drop_succ_cons, List.drop_zero, List.take_succ_cons, List.take_zero,
      List.getD_cons_succ, List.getD_cons_zero, WriteAs.covered, List.cons_append,
      List.nil_append, List.append_assoc]

/-- C18: receiver-side validity of the UDP checksum. For every source and destination
address, ports and payload (of even or odd length), take the packet `WriteAs` assembles
and form pseudo-header, UDP header with the stored checksum and payload, zero-padded to
even length; its big-endian 16-bit words, added with end-around carry, fold to `0xFFFF`,
so a receiver verifying per RFC 768 accepts the packet. -/
theorem C18_receiver_checksum_valid (darwin : Bool) (c : Conn) (ipsrc : List Byte)
    (port : Word16) (payload : List Byte) :
    ∃ a, WriteAs.sendtoArgs darwin c ipsrc port payload = .ok a
      ∧ rfc1071.fold (rfc1071.wordSum (receiverData a.p)) = 0xFFFF := by
  refine ⟨_, sendtoArgs_ok darwin c ipsrc port payload, ?_⟩
  have hle := payload_length_le payload
  have hX : (WriteAs.covered c ipsrc port payload).length % 2 = 0 := by
    simp only [WriteAs.covered, List.length_cons, List.length_nil]
  have hlen : (WriteAs.covered c ipsrc port payload ++ [0, 0]
      ++ WriteAs.payload payload).length ≤ 65535 := by
    simp only [List.length_append, List.length_cons, List.length_nil, WriteAs.covered]
    omega
  have key := fold_checksum_valid (WriteAs.covered c ipsrc port payload)
    (WriteAs.payload payload) hX (covered_wordSum_pos c ipsrc port payload) hlen
  rw [← udp_csum_covered] at key
  show rfc1071.fold (rfc1071.wordSum (receiverData
    (if darwin = true then swap23 (WriteAs.bb c ipsrc port payload)
      else WriteAs.bb c ipsrc port payload))) = 0xFFFF
  rw [receiverData_packet]
  exact key

/-! ## Claims about `NewUDPConn` and addresses without an IPv4 form -/

/-- C19 (the code at the failing input): when the port part of the address is `70000`
and the socket calls succeed, `NewUDPConn` returns a connection and no error; its
`DstPort` is 4464, which is `70000 mod 65536`. `strconv.ParseUint` with bit size 32
accepts the numeral, and the conversion to `uint16` truncates it. -/
theorem C19_NewUDPConn_port_70000 (env : Env) (address host : List Char) (fd : Int)
    (hsplit : env.SplitHostPort address = .ok (host, "70000".data))
    (hsock : env.Socket = (fd, none)) (hfd : 0 ≤ fd) (hopt : env.SetsockoptInt fd = none) :
    strconv_ParseUint "70000".data 32 = .ok 70000
    ∧ NewUDPConn env address =
        (some { fd := fd, IPDst := env.ParseIP host, DstPort := 4464,
                SrcPort := defaultSrcPort, IPSrc := env.ParseIP defaultSrcIP }, none) := by
  have hp : strconv_ParseUint "70000".data 32 = .ok 70000 := rfl
  refine ⟨hp, ?_⟩
  have hnot : ¬ ((none : Option Nat) ≠ none ∨ fd < 0) := by
    intro h
    rcases h with h | h
    · exact h rfl
    · omega
  unfold NewUDPConn
  rw [hsplit]
  simp only [hp, hsock, hopt, if_neg hnot]
  rfl

/-- Witness of C19 (the code at the failing input): `NewUDPConn("203.0.113.5:70000")`
returns a connection with `DstPort` 4464 and no error. -/
theorem C19_NewUDPConn_port_70000_witness :
    NewUDPConn exampleEnv "203.0.113.5:70000".data =
      (some { fd := 3, IPDst := [0, 0, 0, 0, 0, 0, 0, 0, 0, 0, 0xff, 0xff, 203, 0, 113, 5],
              DstPort := 4464, SrcPort := 54321,
              IPSrc := [0, 0, 0, 0, 0, 0, 0, 0, 0, 0, 0xff, 0xff, 127, 0, 0, 1] }, none) :=
  (C19_NewUDPConn_port_70000 exampleEnv "203.0.113.5:70000".data "203.0.113.5".data 3
    (by rfl) rfl (by decide) rfl).2

/-- C20: for every source address without a 4-byte IPv4 form (`To4` yields nil), `WriteAs`
reports no error because of it and assembles a packet whose source address field (bytes
12-15) is 0.0.0.0; both checksums are computed over the address fields as they stand in
the packet, so over that zero address. The same holds for the destination field (bytes
16-19) when `IPDst` has no IPv4 form. -/
theorem C20_no_ipv4_form (darwin : Bool) (sendto : SendtoArgs → Option Nat) (c : Conn)
    (ipsrc : List Byte) (port : Word16) (payload : List Byte) :
    ∃ a, WriteAs.sendtoArgs darwin c ipsrc port payload = .ok a
      ∧ (To4 ipsrc = [] → (a.p.drop 12).take 4 = [0, 0, 0, 0])
      ∧ (To4 c.IPDst = [] → (a.p.drop 16).take 4 = [0, 0, 0, 0])
      ∧ be16At a.p 10 =
          (checksum
            ([0x45, 0] ++ be16 (20 + (8 + (WriteAs.payload payload).length))
              ++ [0x12, 0x34, 0x00, 0x00, 64, 17, 0x00, 0x00]
              ++ (a.p.drop 12).take 4 ++ (a.p.drop 16).take 4)).val
      ∧ be16At a.p 26 =
          (checksum
            ((a.p.drop 12).take 4 ++ (a.p.drop 16).take 4 ++ [0x00, 17]
              ++ be16 (8 + (WriteAs.payload payload).length)
              ++ (be16 port.val ++ be16 c.DstPort.val
                ++ be16 (8 + (WriteAs.payload payload).length) ++ [0x00, 0x00])
              ++ WriteAs.payload payload)).val
      ∧ (sendto a = none → (WriteAs darwin sendto c ipsrc port payload).2 = none) := by
  refine ⟨_, sendtoArgs_ok darwin c ipsrc port payload, ?_⟩
  have hi := ip_iplen c ipsrc payload
  have hu := udp_ulen c ipsrc port payload
  have hc := ip_csum c ipsrc payload
  have hcu := udp_csum_covered c ipsrc port payload
  have h1 := be16_u8 (WriteAs.ip c ipsrc payload).csum.val (WriteAs.ip c ipsrc payload).csum.isLt
  have h2 := be16_u8 (WriteAs.udp c ipsrc port payload).csum.val
    (WriteAs.udp c ipsrc port payload).csum.isLt
  have hz : ∀ l : List Byte, l = [] → (copy4 Bytes4.zero l).toList = [0, 0, 0, 0] := by
    intro l hl
    rw [hl]
    rfl
  simp only [Bytes4.toList] at hz
  have hsend : sendto
        { fd := c.fd,
          p := if darwin = true then swap23 (WriteAs.bb c ipsrc port payload)
               else WriteAs.bb c ipsrc port payload,
          flags := 0, addr := { Port := 0, Addr := Bytes4.zero } } = none →
      (WriteAs darwin sendto c ipsrc port payload).2 = none := by
    intro h
    unfold WriteAs
    rw [sendtoArgs_ok]
    simp only [h]
  refine ⟨?_, ?_, ?_, ?_, hsend⟩
  · intro h
    cases darwin <;>
      simp only [if_true, if_false, Bool.false_eq_true, bb_cons, swap23_cons,
        List.drop_succ_cons, List.drop_zero, List.take_succ_cons, List.take_zero, hz _ h]
  · intro h
    cases darwin <;>
      simp only [if_true, if_false, Bool.false_eq_true, bb_cons, swap23_cons,
        List.drop_succ_cons, List.drop_zero, List.take_succ_cons, List.take_zero, hz _ h]
  · rw [← hi]
    cases darwin <;>
      simp only [if_true, if_false, Bool.false_eq_true, bb_cons, swap23_cons,
        List.drop_succ_cons, List.drop_zero, List.take_succ_cons, List.take_zero, be16At,
        List.getD_cons_succ, List.getD_cons_zero, be16, List.cons_append, List.nil_append,
        List.append_assoc, h1] <;>
      rw [hc] <;> rfl
  · rw [← hu]
    cases darwin <;>
      simp only [if_true, if_false, Bool.false_eq_true, bb_cons, swap23_cons,
        List.drop_succ_cons, List.drop_zero, List.take_succ_cons, List.take_zero, be16At,
        List.getD_cons_succ, List.getD_cons_zero, be16, List.cons_append, List.nil_append,
        List.append_assoc, h2] <;>
      rw [hcu] <;> rfl

/-- Witness of C20: the IPv6 loopback address `::1` as source and a nil destination
address give a packet whose bytes 12-15 and 16-19 are zero. -/
theorem C20_no_ipv4_form_witness :
    To4 [0, 0, 0, 0, 0, 0, 0, 0, 0, 0, 0, 0, 0, 0, 0, 1] = [] ∧ To4 [] = []
    ∧ ∃ a, WriteAs.sendtoArgs false
          { fd := 3, IPSrc := [127, 0, 0, 1], IPDst := [], SrcPort := 54321, DstPort := 9999 }
          [0, 0, 0, 0, 0, 0, 0, 0, 0, 0, 0, 0, 0, 0, 0, 1] 4000 [112, 105, 110, 103] = .ok a
      ∧ (a.p.drop 12).take 4 = [0, 0, 0, 0]
      ∧ (a.p.drop 16).take 4 = [0, 0, 0, 0] := by
  refine ⟨by decide, by decide, ?_⟩
  obtain ⟨a, ha, h1, h2, _⟩ :=
    C20_no_ipv4_form false (fun _ => none)
      { fd := 3, IPSrc := [127, 0, 0, 1], IPDst := [], SrcPort := 54321, DstPort := 9999 }
      [0, 0, 0, 0, 0, 0, 0, 0, 0, 0, 0, 0, 0, 0, 0, 1] 4000 [112, 105, 110, 103]
  exact ⟨a, ha, h1 (by decide), h2 (by decide)⟩

end udpspoof
